import Mathlib

/-
Verification of the llmclient library (Go): a shallow embedding of the
provider dispatch (client.go, newProvider / newStreamProvider), the message
assembler (messagesToMaps / buildMessageContent), the non-streaming content
extraction ladder (extractContentFromPossibleJSON), and the SSE streaming
decoder (parseSSEStream / extractStreamContent), together with theorems
checking the specification's claims about them.

Strings are modelled as Lean String values and processed on their character
lists.  Go's encoding/json Unmarshal into the nullable-field structs is
modelled by an executable JSON parser (parseJson) followed by struct decoders
(decodeGenericResp, decodeStreamResp) that mirror Go semantics: missing keys
leave the zero value, null leaves the zero value, a type-mismatched value for
a recognised key makes Unmarshal report an error, unknown keys are ignored,
key matching is ASCII case-insensitive and the last duplicate key wins.
strings.TrimSpace and the regexp \s class are modelled on their ASCII
whitespace sets (all inputs relevant to the claims are ASCII).
-/

-- ## Character and string utilities (models of Go stdlib behaviour)

def qChar : Char := Char.ofNat 34

def bsChar : Char := Char.ofNat 92

def btChar : Char := Char.ofNat 96

def lbChar : Char := Char.ofNat 123

def rbChar : Char := Char.ofNat 125

def lkChar : Char := Char.ofNat 91

def rkChar : Char := Char.ofNat 93

/-- Whitespace recognised by Go's regexp class \s : tab, newline, form feed,
carriage return, space. -/
def isReSpace (ch : Char) : Bool :=
  ch = ' ' || ch = Char.ofNat 9 || ch = Char.ofNat 10 || ch = Char.ofNat 12 || ch = Char.ofNat 13

/-- Whitespace trimmed by strings.TrimSpace, restricted to ASCII: regexp
whitespace plus vertical tab. -/
def isGoSpace (ch : Char) : Bool :=
  isReSpace ch || ch = Char.ofNat 11

def dropTrailingBy (p : Char → Bool) (l : List Char) : List Char :=
  (l.reverse.dropWhile p).reverse

/-- Model of strings.TrimSpace (ASCII whitespace). -/
def goTrimSpace (s : String) : String :=
  String.mk (dropTrailingBy isGoSpace (s.data.dropWhile isGoSpace))

def isPrefixL : List Char → List Char → Bool
  | [], _ => true
  | _ :: _, [] => false
  | a :: as, b :: bs => a = b && isPrefixL as bs

/-- Model of strings.HasPrefix. -/
def hasPrefixB (s p : String) : Bool :=
  isPrefixL p.data s.data

/-- Model of strings.TrimPrefix. -/
def trimPrefixB (s p : String) : String :=
  if hasPrefixB s p then String.mk (s.data.drop p.data.length) else s

def asciiLowerC (ch : Char) : Char :=
  if 65 ≤ ch.toNat && ch.toNat ≤ 90 then Char.ofNat (ch.toNat + 32) else ch

/-- Model of strings.ToLower (ASCII). -/
def asciiLowerStr (s : String) : String :=
  String.mk (s.data.map asciiLowerC)

def splitLinesAux : List Char → List Char → List String
  | [], cur => [String.mk cur.reverse]
  | ch :: cs, cur =>
    if ch = '\n' then String.mk cur.reverse :: splitLinesAux cs []
    else splitLinesAux cs (ch :: cur)

/-- Newline framing of a response body, as done by bufio.Scanner with
ScanLines.  A trailing carriage return is removed later by TrimSpace exactly
as in the source; the extra empty fragment produced after a trailing newline
is skipped by the decoder's blank-line rule. -/
def splitLines (s : String) : List String :=
  splitLinesAux s.data []

-- ## JSON values and a parser modelling encoding/json syntax

inductive Json where
  | null : Json
  | bool (b : Bool) : Json
  | num (lexeme : String) : Json
  | str (s : String) : Json
  | arr (xs : List Json) : Json
  | obj (fields : List (String × Json)) : Json

def isJsonWS (ch : Char) : Bool :=
  ch = ' ' || ch = Char.ofNat 9 || ch = Char.ofNat 10 || ch = Char.ofNat 13

def skipJsonWS (cs : List Char) : List Char :=
  cs.dropWhile isJsonWS

def hexVal (ch : Char) : Option Nat :=
  if 48 ≤ ch.toNat && ch.toNat ≤ 57 then some (ch.toNat - 48)
  else if 97 ≤ ch.toNat && ch.toNat ≤ 102 then some (ch.toNat - 87)
  else if 65 ≤ ch.toNat && ch.toNat ≤ 70 then some (ch.toNat - 55)
  else none

def consStr (ch : Char) (r : Option (List Char × List Char)) : Option (List Char × List Char) :=
  r.map (fun pr => (ch :: pr.1, pr.2))

/-- Body of a JSON string after the opening quote: returns the decoded
characters and the input after the closing quote. -/
def parseStrBody : List Char → Option (List Char × List Char)
  | [] => none
  | c :: cs =>
    if c = qChar then some ([], cs)
    else if c = bsChar then
      match cs with
      | [] => none
      | e :: cs2 =>
        if e = qChar then consStr qChar (parseStrBody cs2)
        else if e = bsChar then consStr bsChar (parseStrBody cs2)
        else if e = '/' then consStr '/' (parseStrBody cs2)
        else if e = 'b' then consStr (Char.ofNat 8) (parseStrBody cs2)
        else if e = 'f' then consStr (Char.ofNat 12) (parseStrBody cs2)
        else if e = 'n' then consStr (Char.ofNat 10) (parseStrBody cs2)
        else if e = 'r' then consStr (Char.ofNat 13) (parseStrBody cs2)
        else if e = 't' then consStr (Char.ofNat 9) (parseStrBody cs2)
        else if e = 'u' then
          match cs2 with
          | h1 :: h2 :: h3 :: h4 :: cs3 =>
            match hexVal h1, hexVal h2, hexVal h3, hexVal h4 with
            | some a, some b, some c2, some d =>
              consStr (Char.ofNat (((a * 16 + b) * 16 + c2) * 16 + d)) (parseStrBody cs3)
            | _, _, _, _ => none
          | _ => none
        else none
    else if c.toNat < 32 then none
    else consStr c (parseStrBody cs)

def isDigitC (ch : Char) : Bool :=
  48 ≤ ch.toNat && ch.toNat ≤ 57

def spanDigits : List Char → List Char × List Char
  | [] => ([], [])
  | ch :: cs =>
    if isDigitC ch then
      match spanDigits cs with
      | (ds, r) => (ch :: ds, r)
    else ([], ch :: cs)

def parseIntDigits : List Char → Option (List Char × List Char)
  | [] => none
  | ch :: r =>
    if ch = '0' then
      match r with
      | c2 :: _ => if isDigitC c2 then none else some (['0'], r)
      | [] => some (['0'], [])
    else if isDigitC ch then
      match spanDigits r with
      | (ds, r2) => some (ch :: ds, r2)
    else none

def parseIntPart : List Char → Option (List Char × List Char)
  | '-' :: r => (parseIntDigits r).map (fun pr => ('-' :: pr.1, pr.2))
  | cs => parseIntDigits cs

def parseFrac : List Char → Option (List Char × List Char)
  | '.' :: r =>
    (match spanDigits r with
     | ([], _) => none
     | (ds, r2) => some ('.' :: ds, r2))
  | cs => some ([], cs)

def parseExpPart : List Char → Option (List Char × List Char)
  | [] => some ([], [])
  | ch :: r =>
    if ch = 'e' || ch = 'E' then
      match r with
      | '+' :: r2 =>
        (match spanDigits r2 with
         | ([], _) => none
         | (ds, r3) => some (ch :: '+' :: ds, r3))
      | '-' :: r2 =>
        (match spanDigits r2 with
         | ([], _) => none
         | (ds, r3) => some (ch :: '-' :: ds, r3))
      | r2 =>
        (match spanDigits r2 with
         | ([], _) => none
         | (ds, r3) => some (ch :: ds, r3))
    else some ([], ch :: r)

def parseNum (cs : List Char) : Option (Json × List Char) :=
  match parseIntPart cs with
  | none => none
  | some (ip, r1) =>
    match parseFrac r1 with
    | none => none
    | some (fp, r2) =>
      match parseExpPart r2 with
      | none => none
      | some (xp, r3) => some (Json.num (String.mk (ip ++ fp ++ xp)), r3)

mutual

def parseVal : Nat → List Char → Option (Json × List Char)
  | 0, _ => none
  | fuel + 1, cs =>
    match cs with
    | [] => none
    | c :: rest =>
      if c = lbChar then parseObjBody fuel (skipJsonWS rest)
      else if c = lkChar then parseArrBody fuel (skipJsonWS rest)
      else if c = qChar then (parseStrBody rest).map (fun pr => (Json.str (String.mk pr.1), pr.2))
      else if c = 't' then
        match rest with
        | 'r' :: 'u' :: 'e' :: r2 => some (Json.bool true, r2)
        | _ => none
      else if c = 'f' then
        match rest with
        | 'a' :: 'l' :: 's' :: 'e' :: r2 => some (Json.bool false, r2)
        | _ => none
      else if c = 'n' then
        match rest with
        | 'u' :: 'l' :: 'l' :: r2 => some (Json.null, r2)
        | _ => none
      else if c = '-' || isDigitC c then parseNum (c :: rest)
      else none

def parseObjBody : Nat → List Char → Option (Json × List Char)
  | 0, _ => none
  | fuel + 1, cs =>
    match cs with
    | [] => none
    | c :: rest =>
      if c = rbChar then some (Json.obj [], rest)
      else parseObjItems fuel cs []

def parseObjItems : Nat → List Char → List (String × Json) → Option (Json × List Char)
  | 0, _, _ => none
  | fuel + 1, cs, acc =>
    match cs with
    | [] => none
    | c :: rest =>
      if c = qChar then
        match parseStrBody rest with
        | none => none
        | some (key, r1) =>
          match skipJsonWS r1 with
          | ':' :: r2 =>
            (match parseVal fuel (skipJsonWS r2) with
             | none => none
             | some (v, r3) =>
               match skipJsonWS r3 with
               | ',' :: r4 => parseObjItems fuel (skipJsonWS r4) (acc ++ [(String.mk key, v)])
               | c2 :: r4 =>
                 if c2 = rbChar then some (Json.obj (acc ++ [(String.mk key, v)]), r4)
                 else none
               | [] => none)
          | _ => none
      else none

def parseArrBody : Nat → List Char → Option (Json × List Char)
  | 0, _ => none
  | fuel + 1, cs =>
    match cs with
    | [] => none
    | c :: rest =>
      if c = rkChar then some (Json.arr [], rest)
      else parseArrItems fuel cs []

def parseArrItems : Nat → List Char → List Json → Option (Json × List Char)
  | 0, _, _ => none
  | fuel + 1, cs, acc =>
    match parseVal fuel cs with
    | none => none
    | some (v, r1) =>
      match skipJsonWS r1 with
      | ',' :: r2 => parseArrItems fuel (skipJsonWS r2) (acc ++ [v])
      | c2 :: r2 => if c2 = rkChar then some (Json.arr (acc ++ [v]), r2) else none
      | [] => none

end

/-- Model of the syntactic part of json.Unmarshal: parse exactly one JSON
value, allowing surrounding whitespace; empty input or trailing garbage is an
error.  The fuel only bounds nesting depth and is ample for any input of this
length. -/
def parseJson (s : String) : Option Json :=
  match parseVal (s.data.length + 8) (skipJsonWS s.data) with
  | some (j, rest) => if (skipJsonWS rest).isEmpty then some j else none
  | none => none

-- ## Go struct decoding (model of json.Unmarshal into the response structs)

structure ChoiceMsg where
  content : String
deriving DecidableEq

structure Choice where
  message : ChoiceMsg
  content : String
  text : String
deriving DecidableEq

/-- The GenericResp struct of extractContentFromPossibleJSON (client.go). -/
structure GenericResp where
  choices : List Choice
  content : String
  text : String
  output : String
  error : String
deriving DecidableEq

def emptyChoiceMsg : ChoiceMsg := ⟨""⟩

def emptyChoice : Choice := ⟨emptyChoiceMsg, "", ""⟩

def emptyGenericResp : GenericResp := ⟨[], "", "", "", ""⟩

/-- Decoding a JSON value into a Go string field: a string decodes to itself,
null leaves the zero value, anything else is a type error. -/
def decodeStr : Json → Option String
  | Json.str v => some v
  | Json.null => some ""
  | _ => none

def applyChoiceMsgField (m : ChoiceMsg) (kv : String × Json) : Option ChoiceMsg :=
  if asciiLowerStr kv.1 = "content" then (decodeStr kv.2).map (fun v => ⟨v⟩)
  else some m

def decodeChoiceMsg : Json → Option ChoiceMsg
  | Json.null => some emptyChoiceMsg
  | Json.obj fs => fs.foldlM applyChoiceMsgField emptyChoiceMsg
  | _ => none

def applyChoiceField (c : Choice) (kv : String × Json) : Option Choice :=
  if asciiLowerStr kv.1 = "message" then (decodeChoiceMsg kv.2).map (fun v => ⟨v, c.content, c.text⟩)
  else if asciiLowerStr kv.1 = "content" then (decodeStr kv.2).map (fun v => ⟨c.message, v, c.text⟩)
  else if asciiLowerStr kv.1 = "text" then (decodeStr kv.2).map (fun v => ⟨c.message, c.content, v⟩)
  else some c

def decodeChoice : Json → Option Choice
  | Json.null => some emptyChoice
  | Json.obj fs => fs.foldlM applyChoiceField emptyChoice
  | _ => none

def decodeChoices : Json → Option (List Choice)
  | Json.null => some []
  | Json.arr xs => xs.mapM decodeChoice
  | _ => none

def applyGenericField (r : GenericResp) (kv : String × Json) : Option GenericResp :=
  if asciiLowerStr kv.1 = "choices" then
    (decodeChoices kv.2).map (fun v => ⟨v, r.content, r.text, r.output, r.error⟩)
  else if asciiLowerStr kv.1 = "content" then
    (decodeStr kv.2).map (fun v => ⟨r.choices, v, r.text, r.output, r.error⟩)
  else if asciiLowerStr kv.1 = "text" then
    (decodeStr kv.2).map (fun v => ⟨r.choices, r.content, v, r.output, r.error⟩)
  else if asciiLowerStr kv.1 = "output" then
    (decodeStr kv.2).map (fun v => ⟨r.choices, r.content, r.text, v, r.error⟩)
  else if asciiLowerStr kv.1 = "error" then
    (decodeStr kv.2).map (fun v => ⟨r.choices, r.content, r.text, r.output, v⟩)
  else some r

def decodeGenericResp : Json → Option GenericResp
  | Json.null => some emptyGenericResp
  | Json.obj fs => fs.foldlM applyGenericField emptyGenericResp
  | _ => none

/-- Model of json.Unmarshal of a body into GenericResp; none exactly when the
Go call reports a non-nil error. -/
def unmarshalGeneric (s : String) : Option GenericResp :=
  (parseJson s).bind decodeGenericResp

-- ## Content-extraction ladder (extractContentFromPossibleJSON, client.go)

/-- The branch cascade executed when Unmarshal succeeded: some res when one of
the return statements inside the err == nil block fires, none when control
falls through to the fenced-block search. -/
def topLevelLadder (r : GenericResp) : Option (Except String String) :=
  if r.content ≠ "" then some (Except.ok r.content)
  else if r.text ≠ "" then some (Except.ok r.text)
  else if r.output ≠ "" then some (Except.ok r.output)
  else none

def jsonLadder (r : GenericResp) : Option (Except String String) :=
  if r.error ≠ "" then some (Except.error r.error)
  else
    match r.choices with
    | c :: _ =>
      if c.message.content ≠ "" then some (Except.ok c.message.content)
      else if c.content ≠ "" then some (Except.ok c.content)
      else if c.text ≠ "" then some (Except.ok c.text)
      else topLevelLadder r
    | [] => topLevelLadder r

def startsTicks : List Char → Bool
  | a :: b :: c :: _ => a = btChar && b = btChar && c = btChar
  | _ => false

/-- First occurrence of a triple backtick: the characters before it and the
characters after it. -/
def splitAtTicks : List Char → Option (List Char × List Char)
  | [] => none
  | a :: rest =>
    if startsTicks (a :: rest) then some ([], rest.drop 2)
    else (splitAtTicks rest).map (fun pr => (a :: pr.1, pr.2))

def startsJsonTag : List Char → Bool
  | 'j' :: 's' :: 'o' :: 'n' :: _ => true
  | _ => false

/-- Model of the Go regexp search with pattern (?s)triple-backtick, optional
json tag, \s*, lazy capture, \s*, triple-backtick: leftmost-first semantics.
At the first opening fence, the capture starts after an optional json tag and
the maximal whitespace run, and ends before the next closing fence with
trailing whitespace stripped; an opening fence with no closing fence is
abandoned and the scan resumes one character later.  The fuel is ample: every
resumption strictly shrinks the input. -/
def findFenceAux : Nat → List Char → Option (List Char)
  | 0, _ => none
  | fuel + 1, cs =>
    match splitAtTicks cs with
    | none => none
    | some (_, afterOpen) =>
      let body := if startsJsonTag afterOpen then afterOpen.drop 4 else afterOpen
      let content := body.dropWhile isReSpace
      match splitAtTicks content with
      | some (inner, _) => some (dropTrailingBy isReSpace inner)
      | none => findFenceAux fuel (btChar :: btChar :: afterOpen)

def findFence (cs : List Char) : Option (List Char) :=
  findFenceAux (cs.length + 1) cs

def lbraceStr : String := "\x7b"

/-- Model of extractContentFromPossibleJSON (client.go).  The fuel argument
only bounds the recursion on nested fenced blocks; the wrapper supplies
length + 1, which is ample because each extracted fence body is strictly
shorter than its enclosing string. -/
def extractContentAux : Nat → String → Except String String
  | 0, _ => Except.error "failed to extract content"
  | fuel + 1, s0 =>
    match (unmarshalGeneric (goTrimSpace s0)).bind jsonLadder with
    | some res => res
    | none =>
      match findFence (goTrimSpace s0).data with
      | some inner =>
        (match extractContentAux fuel (String.mk inner) with
         | Except.ok c => Except.ok c
         | Except.error _ => Except.ok (String.mk inner))
      | none =>
        if goTrimSpace s0 ≠ "" ∧ hasPrefixB (goTrimSpace s0) lbraceStr = false then
          Except.ok (goTrimSpace s0)
        else Except.error "failed to extract content"

def extractContentFromPossibleJSON (s : String) : Except String String :=
  extractContentAux (s.length + 1) s

/-- Model of extractContent (client.go), which converts the body bytes to a
string and delegates. -/
def extractContent (body : String) : Except String String :=
  extractContentFromPossibleJSON body

-- ## Streaming decoder (part: streaming source file)

structure StreamDelta where
  content : String
deriving DecidableEq

structure StreamChoice where
  delta : StreamDelta
  finishReason : String
deriving DecidableEq

/-- The StreamResp struct of extractStreamContent. -/
structure StreamResp where
  choices : List StreamChoice
deriving DecidableEq

def emptyStreamDelta : StreamDelta := ⟨""⟩

def emptyStreamChoice : StreamChoice := ⟨emptyStreamDelta, ""⟩

def applyStreamDeltaField (m : StreamDelta) (kv : String × Json) : Option StreamDelta :=
  if asciiLowerStr kv.1 = "content" then (decodeStr kv.2).map (fun v => ⟨v⟩)
  else some m

def decodeStreamDelta : Json → Option StreamDelta
  | Json.null => some emptyStreamDelta
  | Json.obj fs => fs.foldlM applyStreamDeltaField emptyStreamDelta
  | _ => none

def applyStreamChoiceField (c : StreamChoice) (kv : String × Json) : Option StreamChoice :=
  if asciiLowerStr kv.1 = "delta" then (decodeStreamDelta kv.2).map (fun v => ⟨v, c.finishReason⟩)
  else if asciiLowerStr kv.1 = "finish_reason" then (decodeStr kv.2).map (fun v => ⟨c.delta, v⟩)
  else some c

def decodeStreamChoice : Json → Option StreamChoice
  | Json.null => some emptyStreamChoice
  | Json.obj fs => fs.foldlM applyStreamChoiceField emptyStreamChoice
  | _ => none

def decodeStreamChoices : Json → Option (List StreamChoice)
  | Json.null => some []
  | Json.arr xs => xs.mapM decodeStreamChoice
  | _ => none

def applyStreamRespField (r : StreamResp) (kv : String × Json) : Option StreamResp :=
  if asciiLowerStr kv.1 = "choices" then (decodeStreamChoices kv.2).map (fun v => ⟨v⟩)
  else some r

def decodeStreamResp : Json → Option StreamResp
  | Json.null => some ⟨[]⟩
  | Json.obj fs => fs.foldlM applyStreamRespField ⟨[]⟩
  | _ => none

/-- Model of extractStreamContent: none when json.Unmarshal fails, otherwise
the first choice's delta content, or the empty string when the choices array
is empty. -/
def extractStreamContent (data : String) : Option String :=
  match (parseJson data).bind decodeStreamResp with
  | none => none
  | some r =>
    some (match r.choices with
          | c :: _ => c.delta.content
          | [] => "")

/-- One delivered stream chunk (StreamChunk in the source). -/
structure StreamChunk where
  content : String
  done : Bool
deriving DecidableEq

/-- Model of parseSSEStream's line loop.  The callback is modelled as a
function of the chunks it has already been given (fully general for a
deterministic stateful Go callback): none means the Go callback returned nil,
some e that it returned error e.  The result is the ordered list of chunks
passed to the callback together with the decode outcome; a read error cannot
arise from an in-memory body, so a completed loop models scanner.Err() = nil. -/
def parseSSE {ε : Type} (cb : List StreamChunk → StreamChunk → Option ε) :
    List String → List StreamChunk → List StreamChunk × Option ε
  | [], acc => (acc, none)
  | l :: rest, acc =>
    if goTrimSpace l = "" ∨ hasPrefixB (goTrimSpace l) "data: " = false then
      parseSSE cb rest acc
    else if trimPrefixB (goTrimSpace l) "data: " = "[DONE]" then
      (acc ++ [⟨"", true⟩], cb acc ⟨"", true⟩)
    else
      match extractStreamContent (trimPrefixB (goTrimSpace l) "data: ") with
      | none => parseSSE cb rest acc
      | some content =>
        if content = "" then parseSSE cb rest acc
        else
          match cb acc ⟨content, false⟩ with
          | some e => (acc ++ [⟨content, false⟩], some e)
          | none => parseSSE cb rest (acc ++ [⟨content, false⟩])

/-- Model of parseSSEStream on a full response body. -/
def parseSSEStream {ε : Type} (cb : List StreamChunk → StreamChunk → Option ε)
    (body : String) : List StreamChunk × Option ε :=
  parseSSE cb (splitLines body) []

/-- The aggregation performed by Client.SendStream's wrapper callback: the
concatenation, in arrival order, of the contents of the non-terminal chunks. -/
def aggregateContent (tr : List StreamChunk) : String :=
  tr.foldl (fun acc ch => if ch.done then acc else acc ++ ch.content) ""

/-- Model of the aggregation layer of Client.SendStream over the SSE body the
provider returned: on success the StreamResponse content, otherwise the error
propagated from decoding or from the caller's callback. -/
def sendStreamContent {ε : Type} (cb : List StreamChunk → StreamChunk → Option ε)
    (body : String) : Except ε String :=
  match parseSSEStream cb body with
  | (tr, none) => Except.ok (aggregateContent tr)
  | (_, some e) => Except.error e

-- ## Provider dispatch (client.go newProvider, streaming newStreamProvider)

structure Message where
  role : String
  content : String
deriving DecidableEq

/-- The Request struct (client.go). -/
structure Request where
  provider : String
  model : String
  apiKey : String
  systemPrompt : String
  prompt : String
  messages : List Message
  images : List String
  endpoint : String
  temperature : Option Float
  maxTokens : Option Int
  seed : Option Int

/-- The Response struct (client.go); raw models the Raw byte slice, none
standing for a nil slice. -/
structure Response where
  content : String
  raw : Option (List Nat)
deriving DecidableEq

def defaultOllamaURL : String := "http://localhost:11434/v1/chat/completions"

def defaultPollinationsURL : String := "https://gen.pollinations.ai/v1/chat/completions"

def defaultOpenRouterURL : String := "https://openrouter.ai/api/v1/chat/completions"

/-- The concrete strategy structs a dispatch call can construct (the shared
http client field carries no request-relevant state and is omitted). -/
inductive Provider where
  | ollama (model : String) (endpoint : String)
  | pollinations (model : String) (key : String) (seed : Option Int)
  | openrouter (model : String) (key : String)
  | generic (endpoint : String) (model : String) (key : String)
deriving DecidableEq

/-- Provider-name normalisation: strings.ToLower(strings.TrimSpace(...)). -/
def normName (s : String) : String :=
  asciiLowerStr (goTrimSpace s)

def isURL (s : String) : Bool :=
  hasPrefixB s "http://" || hasPrefixB s "https://"

/-- Model of Client.newProvider (client.go). -/
def newProvider (req : Request) : Except String Provider :=
  if normName req.provider = "ollama" then
    Except.ok (Provider.ollama req.model (if req.endpoint = "" then defaultOllamaURL else req.endpoint))
  else if normName req.provider = "pollinations" then
    Except.ok (Provider.pollinations req.model req.apiKey req.seed)
  else if normName req.provider = "openrouter" then
    Except.ok (Provider.openrouter req.model req.apiKey)
  else if isURL (normName req.provider) then
    Except.ok (Provider.generic (normName req.provider) req.model req.apiKey)
  else if isURL req.endpoint then
    Except.ok (Provider.generic req.endpoint req.model req.apiKey)
  else
    Except.error ("unknown provider: " ++ req.provider)

/-- Model of Client.newStreamProvider (streaming source file); its body is
the same resolution as newProvider. -/
def newStreamProvider (req : Request) : Except String Provider :=
  if normName req.provider = "ollama" then
    Except.ok (Provider.ollama req.model (if req.endpoint = "" then defaultOllamaURL else req.endpoint))
  else if normName req.provider = "pollinations" then
    Except.ok (Provider.pollinations req.model req.apiKey req.seed)
  else if normName req.provider = "openrouter" then
    Except.ok (Provider.openrouter req.model req.apiKey)
  else if isURL (normName req.provider) then
    Except.ok (Provider.generic (normName req.provider) req.model req.apiKey)
  else if isURL req.endpoint then
    Except.ok (Provider.generic req.endpoint req.model req.apiKey)
  else
    Except.error ("unknown provider: " ++ req.provider)

/-- The URL each strategy's non-streaming Send passes to postJSON:
ollamaProvider.Send posts to its stored endpoint, pollinationsProvider.Send
always to defaultPollinationsURL, openRouterProvider.Send always to
defaultOpenRouterURL, genericProvider.Send to its stored endpoint. -/
def sendEndpoint : Provider → String
  | Provider.ollama _ e => e
  | Provider.pollinations _ _ _ => defaultPollinationsURL
  | Provider.openrouter _ _ => defaultOpenRouterURL
  | Provider.generic e _ _ => e

/-- Model of Client.Send (client.go): nil-request check, dispatch, prompt
defaulting into a one-element user history, then the provider transaction
(network plus extraction) abstracted as sendFn, and the Response built with
only the Content field set. -/
def clientSend (sendFn : Provider → List Message → List String → String → Except String String) :
    Option Request → Except String Response
  | none => Except.error "request is nil"
  | some r =>
    match newProvider r with
    | Except.error e => Except.error e
    | Except.ok p =>
      match sendFn p (if r.messages = [] ∧ r.prompt ≠ "" then [⟨"user", r.prompt⟩] else r.messages)
          r.images r.systemPrompt with
      | Except.error e => Except.error e
      | Except.ok content => Except.ok ⟨content, none⟩

-- ## Message assembler (messagesToMaps / buildMessageContent, client.go)

inductive WirePart where
  | text (t : String)
  | imageURL (url : String)
deriving DecidableEq

/-- The content field of a wire message: a plain string, or the multi-part
list produced for vision requests. -/
inductive WireContent where
  | str (s : String)
  | parts (ps : List WirePart)
deriving DecidableEq

structure WireMessage where
  role : String
  content : WireContent
deriving DecidableEq

/-- Model of buildMessageContent. -/
def buildMessageContent (content : String) (images : List String) : WireContent :=
  match images with
  | [] => WireContent.str content
  | _ => WireContent.parts (WirePart.text content :: images.map WirePart.imageURL)

/-- The history loop of messagesToMaps: only the final entry, and only with
role user and a non-empty image list, receives the multi-part content. -/
def historyToWire (images : List String) : List Message → List WireMessage
  | [] => []
  | [m] =>
    if m.role = "user" ∧ images ≠ [] then [⟨m.role, buildMessageContent m.content images⟩]
    else [⟨m.role, WireContent.str m.content⟩]
  | m :: m2 :: rest => ⟨m.role, WireContent.str m.content⟩ :: historyToWire images (m2 :: rest)

/-- Model of messagesToMaps. -/
def messagesToMaps (history : List Message) (images : List String) (systemPrompt : String) :
    List WireMessage :=
  (if systemPrompt ≠ "" then [⟨"system", WireContent.str systemPrompt⟩] else [])
    ++ historyToWire images history

-- ## Specification-side definition for the extraction claim

def firstNonEmpty : List String → Option String
  | [] => none
  | s :: rest => if s ≠ "" then some s else firstNonEmpty rest

/-- Stated from the words of claim C1 (spec section 4.4), for comparison with
the code-side jsonLadder: a non-empty error field wins outright; otherwise the
first non-empty of the first choice's message.content, content, text; and if
none of those matched, the first non-empty of the top-level content, text,
output. -/
def specExtractLadder (r : GenericResp) : Option (Except String String) :=
  if r.error ≠ "" then some (Except.error r.error)
  else
    match r.choices with
    | c :: _ =>
      (match firstNonEmpty [c.message.content, c.content, c.text] with
       | some v => some (Except.ok v)
       | none => (firstNonEmpty [r.content, r.text, r.output]).map Except.ok)
    | [] => (firstNonEmpty [r.content, r.text, r.output]).map Except.ok

-- ## Concrete inputs used by the witnesses and counterexamples

def c1body : String :=
  "\x7b\"error\":\"boom\",\"choices\":[\x7b\"message\":\x7b\"content\":\"x\"\x7d\x7d]\x7d"

def c1resp : GenericResp := ⟨[⟨⟨"x"⟩, "", ""⟩], "", "", "", "boom"⟩

def sse2body : String :=
  "data: \x7b\"choices\":[\x7b\"delta\":\x7b\"content\":\"Hi\"\x7d\x7d]\x7d\n\ndata: [DONE]\n"

def sse2lineA : String :=
  "data: \x7b\"choices\":[\x7b\"delta\":\x7b\"content\":\"Hi\"\x7d\x7d]\x7d"

def sse2payload : String :=
  "\x7b\"choices\":[\x7b\"delta\":\x7b\"content\":\"Hi\"\x7d\x7d]\x7d"

def c2cb : List StreamChunk → StreamChunk → Option Unit := fun _ _ => none

def c3badLine : String := "data: nope"

def c4cb : List StreamChunk → StreamChunk → Option Nat := fun _ _ => some 7

def c4line (k : String) : String :=
  "data: \x7b\"choices\":[\x7b\"delta\":\x7b\"content\":\"" ++ k ++ "\"\x7d\x7d]\x7d"

def c4payload (k : String) : String :=
  "\x7b\"choices\":[\x7b\"delta\":\x7b\"content\":\"" ++ k ++ "\"\x7d\x7d]\x7d"

def c5req : Request := ⟨"custom", "m", "", "", "", [], [], "", none, none, none⟩

def c6req : Request := ⟨"https://api.example.com/v1/chat", "m", "k", "", "", [], [], "", none, none, none⟩

def c6reqMixed : Request := ⟨"http://Example.com/A", "", "", "", "", [], [], "", none, none, none⟩

def c7reqOllama : Request := ⟨"ollama", "m", "", "", "", [], [], "http://my.host/x", none, none, none⟩

def c7reqPoll : Request := ⟨"pollinations", "m", "k", "", "", [], [], "http://my.host/x", none, none, some 3⟩

def c7reqRouter : Request := ⟨"openrouter", "m", "k", "", "", [], [], "", none, none, none⟩

def c8m1 : Message := ⟨"user", "first"⟩

def c8m2 : Message := ⟨"assistant", "second"⟩

def c8m3 : Message := ⟨"user", "third"⟩

def c8m3a : Message := ⟨"assistant", "third"⟩

def c10fn : Provider → List Message → List String → String → Except String String :=
  fun _ _ _ _ => Except.ok "hello"

-- ## Helper lemmas

lemma string_mk_data (s : String) : String.mk s.data = s := by
  cases s
  rfl

lemma strDataAppend (a b : String) : (a ++ b).data = a.data ++ b.data := by
  cases a
  cases b
  rfl

lemma dropLenAppend {α : Type} (xs ys : List α) : (xs ++ ys).drop xs.length = ys := by
  induction xs with
  | nil => rfl
  | cons a t ih => simp [ih]

lemma isPrefixL_append (xs ys : List Char) : isPrefixL xs (xs ++ ys) = true := by
  induction xs with
  | nil => rfl
  | cons a t ih => simp [isPrefixL, ih]

lemma hasPrefixB_append (p d : String) : hasPrefixB (p ++ d) p = true := by
  unfold hasPrefixB
  rw [strDataAppend]
  exact isPrefixL_append p.data d.data

lemma trimPrefixB_append (p d : String) : trimPrefixB (p ++ d) p = d := by
  unfold trimPrefixB
  rw [if_pos (hasPrefixB_append p d), strDataAppend, dropLenAppend, string_mk_data]

lemma isPrefixL_decomp (xs ys : List Char) (h : isPrefixL xs ys = true) :
    ys = xs ++ ys.drop xs.length := by
  induction xs generalizing ys with
  | nil => simp
  | cons a t ih =>
    cases ys with
    | nil => simp [isPrefixL] at h
    | cons b bs =>
      simp only [isPrefixL, Bool.and_eq_true, decide_eq_true_eq] at h
      obtain ⟨rfl, h2⟩ := h
      simpa using ih bs h2

lemma hasPrefixB_decomp (s p : String) (h : hasPrefixB s p = true) :
    s = p ++ trimPrefixB s p := by
  unfold trimPrefixB
  rw [if_pos h]
  unfold hasPrefixB at h
  have h2 := isPrefixL_decomp p.data s.data h
  calc s = String.mk s.data := (string_mk_data s).symm
    _ = String.mk (p.data ++ s.data.drop p.data.length) := by rw [← h2]
    _ = p ++ String.mk (s.data.drop p.data.length) := by
        cases p
        rfl

lemma dataLine_ne_empty (d : String) : ("data: " ++ d) ≠ "" := by
  intro h
  have h2 := congrArg String.data h
  rw [strDataAppend] at h2
  have h3 : "data: ".data = [] ∧ d.data = [] := List.append_eq_nil.mp h2
  exact absurd h3.1 (by decide)

lemma sse_step_skip {ε : Type} (cb : List StreamChunk → StreamChunk → Option ε)
    (l : String) (rest : List String) (acc : List StreamChunk)
    (h : goTrimSpace l = "" ∨ hasPrefixB (goTrimSpace l) "data: " = false) :
    parseSSE cb (l :: rest) acc = parseSSE cb rest acc := by
  simp only [parseSSE]
  rw [if_pos h]

lemma sse_step_done {ε : Type} (cb : List StreamChunk → StreamChunk → Option ε)
    (l : String) (rest : List String) (acc : List StreamChunk)
    (h : goTrimSpace l = "data: [DONE]") :
    parseSSE cb (l :: rest) acc = (acc ++ [⟨"", true⟩], cb acc ⟨"", true⟩) := by
  simp only [parseSSE]
  rw [h]
  rw [if_neg (by decide), if_pos (by decide)]

lemma sse_step_data {ε : Type} (cb : List StreamChunk → StreamChunk → Option ε)
    (l : String) (rest : List String) (acc : List StreamChunk) (d w : String)
    (hd : goTrimSpace l = "data: " ++ d) (hne : d ≠ "[DONE]")
    (he : extractStreamContent d = some w) (hw : w ≠ "") :
    parseSSE cb (l :: rest) acc =
      match cb acc ⟨w, false⟩ with
      | some e => (acc ++ [⟨w, false⟩], some e)
      | none => parseSSE cb rest (acc ++ [⟨w, false⟩]) := by
  simp only [parseSSE]
  rw [hd, trimPrefixB_append]
  rw [if_neg (by
    intro hc
    rcases hc with hc | hc
    · exact dataLine_ne_empty d hc
    · rw [hasPrefixB_append] at hc
      simp at hc)]
  rw [if_neg hne, he]
  simp only [if_neg hw]

lemma sse_step_data_ok {ε : Type} (cb : List StreamChunk → StreamChunk → Option ε)
    (l : String) (rest : List String) (acc : List StreamChunk) (d w : String)
    (hd : goTrimSpace l = "data: " ++ d) (hne : d ≠ "[DONE]")
    (he : extractStreamContent d = some w) (hw : w ≠ "")
    (hcb : cb acc ⟨w, false⟩ = none) :
    parseSSE cb (l :: rest) acc = parseSSE cb rest (acc ++ [⟨w, false⟩]) := by
  rw [sse_step_data cb l rest acc d w hd hne he hw, hcb]

lemma sse_step_data_err {ε : Type} (cb : List StreamChunk → StreamChunk → Option ε)
    (l : String) (rest : List String) (acc : List StreamChunk) (d w : String) (e : ε)
    (hd : goTrimSpace l = "data: " ++ d) (hne : d ≠ "[DONE]")
    (he : extractStreamContent d = some w) (hw : w ≠ "")
    (hcb : cb acc ⟨w, false⟩ = some e) :
    parseSSE cb (l :: rest) acc = (acc ++ [⟨w, false⟩], some e) := by
  rw [sse_step_data cb l rest acc d w hd hne he hw, hcb]

lemma sse_step_bad {ε : Type} (cb : List StreamChunk → StreamChunk → Option ε)
    (l : String) (rest : List String) (acc : List StreamChunk) (d : String)
    (hd : goTrimSpace l = "data: " ++ d) (hne : d ≠ "[DONE]")
    (he : extractStreamContent d = none ∨ extractStreamContent d = some "") :
    parseSSE cb (l :: rest) acc = parseSSE cb rest acc := by
  simp only [parseSSE]
  rw [hd, trimPrefixB_append]
  rw [if_neg (by
    intro hc
    rcases hc with hc | hc
    · exact dataLine_ne_empty d hc
    · rw [hasPrefixB_append] at hc
      simp at hc)]
  rw [if_neg hne]
  rcases he with he | he
  · rw [he]
  · rw [he]
    simp

lemma parseSSE_done_stop {ε : Type} (cb : List StreamChunk → StreamChunk → Option ε) :
    ∀ (ls rest : List String) (acc : List StreamChunk),
      parseSSE cb (ls ++ "data: [DONE]" :: rest) acc = parseSSE cb (ls ++ ["data: [DONE]"]) acc := by
  intro ls
  induction ls with
  | nil =>
    intro rest acc
    simp only [List.nil_append]
    rw [sse_step_done cb _ rest acc (by decide), sse_step_done cb _ [] acc (by decide)]
  | cons l t ih =>
    intro rest acc
    simp only [List.cons_append]
    by_cases h1 : goTrimSpace l = "" ∨ hasPrefixB (goTrimSpace l) "data: " = false
    · rw [sse_step_skip cb l _ acc h1, sse_step_skip cb l _ acc h1]
      exact ih rest acc
    · push_neg at h1
      obtain ⟨hne, hpre⟩ := h1
      have hpre2 : hasPrefixB (goTrimSpace l) "data: " = true := by
        cases hb : hasPrefixB (goTrimSpace l) "data: " with
        | false => exact absurd hb hpre
        | true => rfl
      have hd : goTrimSpace l = "data: " ++ trimPrefixB (goTrimSpace l) "data: " :=
        hasPrefixB_decomp _ _ hpre2
      by_cases h2 : trimPrefixB (goTrimSpace l) "data: " = "[DONE]"
      · rw [h2] at hd
        have hd2 : goTrimSpace l = "data: [DONE]" := by
          rw [hd]
          decide
        rw [sse_step_done cb l _ acc hd2, sse_step_done cb l _ acc hd2]
      · cases he : extractStreamContent (trimPrefixB (goTrimSpace l) "data: ") with
        | none =>
          rw [sse_step_bad cb l _ acc _ hd h2 (Or.inl he),
              sse_step_bad cb l _ acc _ hd h2 (Or.inl he)]
          exact ih rest acc
        | some w =>
          by_cases hw : w = ""
          · rw [hw] at he
            rw [sse_step_bad cb l _ acc _ hd h2 (Or.inr he),
                sse_step_bad cb l _ acc _ hd h2 (Or.inr he)]
            exact ih rest acc
          · rw [sse_step_data cb l _ acc _ w hd h2 he hw,
                sse_step_data cb l _ acc _ w hd h2 he hw]
            cases hcb : cb acc ⟨w, false⟩ with
            | some e => simp
            | none =>
              simp only []
              exact ih rest (acc ++ [⟨w, false⟩])

lemma parseSSE_filter_done {ε : Type} (cb : List StreamChunk → StreamChunk → Option ε) :
    ∀ (ls : List String) (acc : List StreamChunk),
      (parseSSE cb ls acc).1.filter (fun ch => ch.done) = acc.filter (fun ch => ch.done) ∨
      (parseSSE cb ls acc).1.filter (fun ch => ch.done) =
        acc.filter (fun ch => ch.done) ++ [⟨"", true⟩] := by
  intro ls
  induction ls with
  | nil => intro acc; left; rfl
  | cons l t ih =>
    intro acc
    by_cases h1 : goTrimSpace l = "" ∨ hasPrefixB (goTrimSpace l) "data: " = false
    · rw [sse_step_skip cb l t acc h1]
      exact ih acc
    · push_neg at h1
      obtain ⟨hne, hpre⟩ := h1
      have hpre2 : hasPrefixB (goTrimSpace l) "data: " = true := by
        cases hb : hasPrefixB (goTrimSpace l) "data: " with
        | false => exact absurd hb hpre
        | true => rfl
      have hd : goTrimSpace l = "data: " ++ trimPrefixB (goTrimSpace l) "data: " :=
        hasPrefixB_decomp _ _ hpre2
      by_cases h2 : trimPrefixB (goTrimSpace l) "data: " = "[DONE]"
      · have hd2 : goTrimSpace l = "data: [DONE]" := by
          rw [hd, h2]
          decide
        rw [sse_step_done cb l t acc hd2]
        right
        simp [List.filter_append]
      · cases he : extractStreamContent (trimPrefixB (goTrimSpace l) "data: ") with
        | none =>
          rw [sse_step_bad cb l t acc _ hd h2 (Or.inl he)]
          exact ih acc
        | some w =>
          by_cases hw : w = ""
          · rw [hw] at he
            rw [sse_step_bad cb l t acc _ hd h2 (Or.inr he)]
            exact ih acc
          · rw [sse_step_data cb l t acc _ w hd h2 he hw]
            cases hcb : cb acc ⟨w, false⟩ with
            | some e =>
              left
              simp [List.filter_append]
            | none =>
              simp only []
              have h3 : (acc ++ [(⟨w, false⟩ : StreamChunk)]).filter (fun ch => ch.done) =
                  acc.filter (fun ch => ch.done) := by
                simp [List.filter_append]
              rcases ih (acc ++ [⟨w, false⟩]) with h4 | h4
              · left
                rw [h4, h3]
              · right
                rw [h4, h3]

lemma jsonLadder_eq_spec (r : GenericResp) : jsonLadder r = specExtractLadder r := by
  unfold jsonLadder specExtractLadder topLevelLadder
  by_cases he : r.error ≠ ""
  · rw [if_pos he, if_pos he]
  · rw [if_neg he, if_neg he]
    cases r.choices with
    | nil =>
      by_cases h1 : r.content ≠ ""
      · simp [firstNonEmpty, h1]
      · by_cases h2 : r.text ≠ ""
        · simp [firstNonEmpty, h1, h2]
        · by_cases h3 : r.output ≠ ""
          · simp [firstNonEmpty, h1, h2, h3]
          · simp [firstNonEmpty, h1, h2, h3]
    | cons c cs =>
      by_cases hm : c.message.content ≠ ""
      · simp [firstNonEmpty, hm]
      · by_cases hc : c.content ≠ ""
        · simp [firstNonEmpty, hm, hc]
        · by_cases ht : c.text ≠ ""
          · simp [firstNonEmpty, hm, hc, ht]
          · by_cases h1 : r.content ≠ ""
            · simp [firstNonEmpty, hm, hc, ht, h1]
            · by_cases h2 : r.text ≠ ""
              · simp [firstNonEmpty, hm, hc, ht, h1, h2]
              · by_cases h3 : r.output ≠ ""
                · simp [firstNonEmpty, hm, hc, ht, h1, h2, h3]
                · simp [firstNonEmpty, hm, hc, ht, h1, h2, h3]

/-- Claim C1: for every response body that json.Unmarshal decodes into the
generic response struct, the extraction ladder behaves as specified: a
non-empty top-level error field makes extraction fail with exactly that
string (even when a populated choices array or any other extractable field is
present); otherwise, with choices present and non-empty, the first non-empty
of the first element's message.content, content, text is returned, and if
none of those matched, the first non-empty of the top-level content, text,
output — all captured by specExtractLadder, stated from the claim's words. -/
theorem c1_extraction_ladder (s : String) (r : GenericResp) (res : Except String String)
    (hu : unmarshalGeneric (goTrimSpace s) = some r)
    (hl : specExtractLadder r = some res) :
    extractContentFromPossibleJSON s = res := by
  have hj : jsonLadder r = some res := by rw [jsonLadder_eq_spec]; exact hl
  unfold extractContentFromPossibleJSON
  simp only [extractContentAux, hu]
  rw [show ((some r).bind fun a => jsonLadder a) = jsonLadder r from rfl, hj]

/-- Witness for C1: a body carrying both a non-empty error field and a
populated choices array decodes as expected and extraction fails with the
provider-reported error string. -/
theorem c1_extraction_ladder_witness :
    unmarshalGeneric (goTrimSpace c1body) = some c1resp ∧
    specExtractLadder c1resp = some (Except.error "boom") ∧
    extractContentFromPossibleJSON c1body = Except.error "boom" :=
  ⟨by decide, by rfl, c1_extraction_ladder c1body c1resp (Except.error "boom") (by decide) (by rfl)⟩

/-- Claim C2: on the SSE stream consisting of one data line with delta
content "Hi", a blank line and the [DONE] sentinel, any callback that does
not raise an error is invoked exactly twice — first with the non-terminal
chunk "Hi", then with the terminal chunk — the decode completes without
error, the aggregated SendStream response equals "Hi", and (in general) once
a [DONE] line is reached, no lines after it influence the result. -/
theorem c2_stream_decode {ε : Type} (cb : List StreamChunk → StreamChunk → Option ε)
    (h1 : cb [] ⟨"Hi", false⟩ = none)
    (h2 : cb [⟨"Hi", false⟩] ⟨"", true⟩ = none) :
    parseSSEStream cb sse2body = ([⟨"Hi", false⟩, ⟨"", true⟩], none) ∧
    sendStreamContent cb sse2body = Except.ok "Hi" ∧
    ∀ (ls rest : List String) (acc : List StreamChunk),
      parseSSE cb (ls ++ "data: [DONE]" :: rest) acc =
        parseSSE cb (ls ++ ["data: [DONE]"]) acc := by
  have hsplit : splitLines sse2body = [sse2lineA, "", "data: [DONE]", ""] := by decide
  have hmain : parseSSEStream cb sse2body = ([⟨"Hi", false⟩, ⟨"", true⟩], none) := by
    unfold parseSSEStream
    rw [hsplit]
    rw [sse_step_data_ok cb sse2lineA _ [] sse2payload "Hi" (by decide) (by decide)
      (by decide) (by decide) h1]
    rw [sse_step_skip cb "" _ _ (Or.inl (by decide))]
    rw [sse_step_done cb "data: [DONE]" _ _ (by decide)]
    simp only [List.nil_append]
    rw [h2]
    rfl
  refine ⟨hmain, ?_, fun ls rest acc => parseSSE_done_stop cb ls rest acc⟩
  unfold sendStreamContent
  rw [hmain]
  rfl

/-- Witness for C2: the non-erroring callback observes exactly the two
specified chunks and SendStream aggregates "Hi". -/
theorem c2_stream_decode_witness :
    c2cb [] ⟨"Hi", false⟩ = none ∧
    parseSSEStream c2cb sse2body = ([⟨"Hi", false⟩, ⟨"", true⟩], none) ∧
    sendStreamContent c2cb sse2body = Except.ok "Hi" :=
  ⟨rfl, (c2_stream_decode c2cb rfl rfl).1, (c2_stream_decode c2cb rfl rfl).2.1⟩

/-- Claim C3: in a stream whose first data line carries a payload that either
fails to parse as JSON or lacks the choices[0].delta.content path (and is not
the [DONE] sentinel), followed by one well-formed data line with a non-empty
delta, a non-erroring callback is invoked exactly once — with the valid
line's fragment — and decoding completes without error: the malformed frame
is silently skipped and never aborts the stream. -/
theorem c3_malformed_frame_skipped {ε : Type} (cb : List StreamChunk → StreamChunk → Option ε)
    (l1 l2 m d w : String)
    (hm1 : goTrimSpace l1 = "data: " ++ m) (hm2 : m ≠ "[DONE]")
    (hm3 : extractStreamContent m = none ∨ extractStreamContent m = some "")
    (hd1 : goTrimSpace l2 = "data: " ++ d) (hd2 : d ≠ "[DONE]")
    (hd3 : extractStreamContent d = some w) (hd4 : w ≠ "")
    (hcb : cb [] ⟨w, false⟩ = none) :
    parseSSE cb [l1, l2] [] = ([⟨w, false⟩], none) := by
  rw [sse_step_bad cb l1 _ [] m hm1 hm2 hm3]
  rw [sse_step_data_ok cb l2 _ [] d w hd1 hd2 hd3 hd4 hcb]
  rfl

/-- Witness for C3: a stream with one unparsable data payload followed by the
valid "Hi" delta line delivers exactly the one valid chunk and succeeds. -/
theorem c3_malformed_frame_skipped_witness :
    extractStreamContent "nope" = none ∧
    parseSSE c2cb [c3badLine, sse2lineA] [] = ([⟨"Hi", false⟩], none) :=
  ⟨by decide,
   c3_malformed_frame_skipped c2cb c3badLine sse2lineA "nope" sse2payload "Hi"
     (by decide) (by decide) (Or.inl (by decide)) (by decide) (by decide) (by decide)
     (by decide) rfl⟩

/-- Claim C4: whenever the callback returns an error on the first delivered
chunk of a stream of five decodable non-empty data lines, decoding stops
immediately: exactly one chunk is observed, none of the remaining lines are
processed, and that same error is returned. -/
theorem c4_callback_error_cancels {ε : Type} (cb : List StreamChunk → StreamChunk → Option ε)
    (l1 l2 l3 l4 l5 d1 d2 d3 d4 d5 w1 w2 w3 w4 w5 : String) (e : ε)
    (h11 : goTrimSpace l1 = "data: " ++ d1) (h12 : d1 ≠ "[DONE]")
    (h13 : extractStreamContent d1 = some w1) (h14 : w1 ≠ "")
    (_h21 : goTrimSpace l2 = "data: " ++ d2) (_h22 : d2 ≠ "[DONE]")
    (_h23 : extractStreamContent d2 = some w2) (_h24 : w2 ≠ "")
    (_h31 : goTrimSpace l3 = "data: " ++ d3) (_h32 : d3 ≠ "[DONE]")
    (_h33 : extractStreamContent d3 = some w3) (_h34 : w3 ≠ "")
    (_h41 : goTrimSpace l4 = "data: " ++ d4) (_h42 : d4 ≠ "[DONE]")
    (_h43 : extractStreamContent d4 = some w4) (_h44 : w4 ≠ "")
    (_h51 : goTrimSpace l5 = "data: " ++ d5) (_h52 : d5 ≠ "[DONE]")
    (_h53 : extractStreamContent d5 = some w5) (_h54 : w5 ≠ "")
    (hcb : cb [] ⟨w1, false⟩ = some e) :
    parseSSE cb [l1, l2, l3, l4, l5] [] = ([⟨w1, false⟩], some e) := by
  rw [sse_step_data_err cb l1 _ [] d1 w1 e h11 h12 h13 h14 hcb]
  rfl

/-- Witness for C4: on a five-chunk stream whose callback errors immediately,
exactly the first chunk is observed and the callback's error is returned. -/
theorem c4_callback_error_cancels_witness :
    c4cb [] ⟨"a1", false⟩ = some 7 ∧
    parseSSE c4cb [c4line "a1", c4line "a2", c4line "a3", c4line "a4", c4line "a5"] [] =
      ([⟨"a1", false⟩], some 7) :=
  ⟨rfl,
   c4_callback_error_cancels c4cb (c4line "a1") (c4line "a2") (c4line "a3") (c4line "a4")
     (c4line "a5") (c4payload "a1") (c4payload "a2") (c4payload "a3") (c4payload "a4")
     (c4payload "a5") "a1" "a2" "a3" "a4" "a5" 7
     (by decide) (by decide) (by decide) (by decide)
     (by decide) (by decide) (by decide) (by decide)
     (by decide) (by decide) (by decide) (by decide)
     (by decide) (by decide) (by decide) (by decide)
     (by decide) (by decide) (by decide) (by decide)
     rfl⟩

/-- Claim C9 (amended): for every callback and every stream body, the chunk
sequence delivered by the decoder is a finite list in which at most one
terminal chunk appears, and any terminal chunk carries empty content: the
done-marked chunks of the trace are either none or exactly the single empty
terminal chunk.  (The original claim's "exactly one terminal chunk per
successful stream" fails when the input ends without a [DONE] sentinel.) -/
theorem c9_done_chunk_invariant {ε : Type} (cb : List StreamChunk → StreamChunk → Option ε)
    (body : String) :
    (parseSSEStream cb body).1.filter (fun ch => ch.done) = [] ∨
    (parseSSEStream cb body).1.filter (fun ch => ch.done) = [⟨"", true⟩] := by
  have h := parseSSE_filter_done cb (splitLines body) []
  rcases h with h | h
  · left
    exact h
  · right
    exact h

/-- Counterexample for C9 as stated: the empty stream completes without
error, yet zero terminal chunks are delivered, contradicting "a terminal
chunk is delivered exactly once per successful stream". -/
theorem c9_counterexample :
    (parseSSEStream c2cb "").2 = none ∧
    (parseSSEStream c2cb "").1.filter (fun ch => ch.done) = [] :=
  ⟨rfl, rfl⟩

lemma isURL_ne_ollama (x : String) (h : isURL x = true) : x ≠ "ollama" := by
  intro he
  rw [he] at h
  exact absurd h (by decide)

lemma isURL_ne_pollinations (x : String) (h : isURL x = true) : x ≠ "pollinations" := by
  intro he
  rw [he] at h
  exact absurd h (by decide)

lemma isURL_ne_openrouter (x : String) (h : isURL x = true) : x ≠ "openrouter" := by
  intro he
  rw [he] at h
  exact absurd h (by decide)

/-- Claim C5 (amended): chat dispatch consults no dynamic registry.  For
every request whose normalized provider identifier is not a built-in name and
not an absolute HTTP(S) URL, and whose endpoint override is not a URL, both
newProvider and newStreamProvider fail with an unknown-provider error naming
the original identifier — regardless of any registration performed through
the repository's registries, which exist only for the balance, usage, profile
and models endpoints and are never read by chat dispatch. -/
theorem c5_no_registry_in_dispatch (req : Request)
    (h1 : normName req.provider ≠ "ollama")
    (h2 : normName req.provider ≠ "pollinations")
    (h3 : normName req.provider ≠ "openrouter")
    (h4 : isURL (normName req.provider) = false)
    (h5 : isURL req.endpoint = false) :
    newProvider req = Except.error ("unknown provider: " ++ req.provider) ∧
    newStreamProvider req = Except.error ("unknown provider: " ++ req.provider) := by
  constructor
  · simp [newProvider, h1, h2, h3, h4, h5]
  · simp [newStreamProvider, h1, h2, h3, h4, h5]

/-- Witness for C5 (amended): the provider name "custom", with no URL
anywhere, is rejected by both dispatchers. -/
theorem c5_no_registry_in_dispatch_witness :
    newProvider c5req = Except.error "unknown provider: custom" ∧
    newStreamProvider c5req = Except.error "unknown provider: custom" := by
  have h := c5_no_registry_in_dispatch c5req (by decide) (by decide) (by decide)
    (by decide) (by decide)
  exact ⟨by rw [h.1]; rfl, by rw [h.2]; rfl⟩

/-- Counterexample for C5 as stated: dispatch reads no registry, so a request
whose provider the spec's dynamic-registry step would resolve (name "custom",
no URL in either field) fails with the unknown-provider error rather than
invoking any registered constructor — and nothing a registration call could
mutate occurs in newProvider's inputs. -/
theorem c5_counterexample :
    newProvider c5req = Except.error "unknown provider: custom" := by
  rfl

lemma newStream_eq_new (req : Request) : newStreamProvider req = newProvider req := rfl

/-- Claim C6 (amended): dispatch resolution is a pure function of the
request — the streaming and non-streaming dispatchers agree, so repeated
resolution targets the same endpoint — and a provider identifier that
normalizes to an absolute HTTP(S) URL selects the generic strategy targeting
the normalized (whitespace-trimmed, lower-cased) identifier; that endpoint
equals the caller-supplied string exactly only when the identifier is already
trimmed and lower-case.  (The original claim's "endpoint equals the
caller-supplied identifier string exactly" fails for mixed-case input.) -/
theorem c6_url_dispatch_normalized (req : Request)
    (h : isURL (normName req.provider) = true) :
    newProvider req = Except.ok (Provider.generic (normName req.provider) req.model req.apiKey) ∧
    newStreamProvider req = newProvider req ∧
    sendEndpoint (Provider.generic (normName req.provider) req.model req.apiKey) =
      normName req.provider := by
  refine ⟨?_, newStream_eq_new req, rfl⟩
  simp [newProvider, isURL_ne_ollama _ h, isURL_ne_pollinations _ h, isURL_ne_openrouter _ h, h]

/-- Witness for C6 (amended): a lower-case URL passed as the provider name
resolves to the generic strategy targeting it. -/
theorem c6_url_dispatch_normalized_witness :
    newProvider c6req =
      Except.ok (Provider.generic "https://api.example.com/v1/chat" "m" "k") ∧
    newStreamProvider c6req = newProvider c6req := by
  have h := c6_url_dispatch_normalized c6req (by decide)
  have he : normName c6req.provider = "https://api.example.com/v1/chat" := by decide
  exact ⟨by rw [h.1, he]; rfl, h.2.1⟩

/-- Counterexample for C6 as stated: for the mixed-case URL identifier
"http://Example.com/A" the generic strategy targets the lower-cased
"http://example.com/a", not the caller-supplied string verbatim. -/
theorem c6_counterexample :
    newProvider c6reqMixed = Except.ok (Provider.generic "http://example.com/a" "" "") ∧
    "http://example.com/a" ≠ "http://Example.com/A" :=
  ⟨by rfl, by decide⟩

/-- Claim C7 (amended): a request normalizing to a built-in name instantiates
that built-in strategy, but only the ollama strategy honours the endpoint
override (falling back to its fixed default when none is supplied); the
pollinations and openrouter strategies' non-streaming Send always targets
their fixed URLs, ignoring any endpoint override.  (The original claim's
"when the request does supply an endpoint, that endpoint is the one the
built-in strategy targets" fails for pollinations and openrouter.) -/
theorem c7_builtin_endpoints (req : Request) :
    (normName req.provider = "ollama" →
      Except.map sendEndpoint (newProvider req) =
        Except.ok (if req.endpoint = "" then defaultOllamaURL else req.endpoint)) ∧
    (normName req.provider = "pollinations" →
      Except.map sendEndpoint (newProvider req) = Except.ok defaultPollinationsURL) ∧
    (normName req.provider = "openrouter" →
      Except.map sendEndpoint (newProvider req) = Except.ok defaultOpenRouterURL) := by
  refine ⟨fun h => ?_, fun h => ?_, fun h => ?_⟩
  · simp only [newProvider, h, if_pos rfl]
    by_cases he : req.endpoint = ""
    · simp [he, Except.map, sendEndpoint]
    · simp [he, Except.map, sendEndpoint]
  · simp [newProvider, h, Except.map, sendEndpoint]
  · simp [newProvider, h, Except.map, sendEndpoint]

/-- Witness for C7 (amended): ollama targets the supplied override;
pollinations with the same override still targets its fixed URL; openrouter
with no override targets its fixed URL. -/
theorem c7_builtin_endpoints_witness :
    Except.map sendEndpoint (newProvider c7reqOllama) = Except.ok "http://my.host/x" ∧
    Except.map sendEndpoint (newProvider c7reqPoll) = Except.ok defaultPollinationsURL ∧
    Except.map sendEndpoint (newProvider c7reqRouter) = Except.ok defaultOpenRouterURL := by
  refine ⟨?_, (c7_builtin_endpoints c7reqPoll).2.1 (by decide),
    (c7_builtin_endpoints c7reqRouter).2.2 (by decide)⟩
  have h := (c7_builtin_endpoints c7reqOllama).1 (by decide)
  rw [h]
  rfl

/-- Counterexample for C7 as stated: a pollinations request that does supply
an endpoint override is still sent to the fixed default pollinations URL. -/
theorem c7_counterexample :
    c7reqPoll.endpoint = "http://my.host/x" ∧
    Except.map sendEndpoint (newProvider c7reqPoll) = Except.ok defaultPollinationsURL ∧
    defaultPollinationsURL ≠ "http://my.host/x" :=
  ⟨rfl, by rfl, by decide⟩

lemma historyToWire_map_role (images : List String) (history : List Message) :
    (historyToWire images history).map WireMessage.role = history.map Message.role := by
  induction history with
  | nil => rfl
  | cons m t ih =>
    cases t with
    | nil =>
      by_cases h : m.role = "user" ∧ images ≠ []
      · simp [historyToWire, h]
      · simp [historyToWire, h]
    | cons m2 rest =>
      simp only [historyToWire, List.map_cons]
      rw [ih]
      simp

/-- Claim C8: images are attached only to the final message and only when its
role is user.  A three-message history ending in a user message with two
images yields a payload whose last message content is the three-part list
(text part, then the two image parts in order) while every other message
stays a plain string; when the last message's role is not user the payload
contains no image parts anywhere; a non-empty system prompt is prepended as
one system-role message and history order and roles are always preserved. -/
theorem c8_message_assembly (sys : String) (images : List String) (m1 m2 m3 : Message)
    (u1 u2 : String) (history : List Message) :
    (m3.role = "user" →
      messagesToMaps [m1, m2, m3] [u1, u2] sys =
        (if sys ≠ "" then [⟨"system", WireContent.str sys⟩] else []) ++
          [⟨m1.role, WireContent.str m1.content⟩, ⟨m2.role, WireContent.str m2.content⟩,
           ⟨m3.role, WireContent.parts
             [WirePart.text m3.content, WirePart.imageURL u1, WirePart.imageURL u2]⟩]) ∧
    (m3.role ≠ "user" →
      messagesToMaps [m1, m2, m3] images sys =
        (if sys ≠ "" then [⟨"system", WireContent.str sys⟩] else []) ++
          [⟨m1.role, WireContent.str m1.content⟩, ⟨m2.role, WireContent.str m2.content⟩,
           ⟨m3.role, WireContent.str m3.content⟩]) ∧
    (messagesToMaps history images sys).map WireMessage.role =
      (if sys ≠ "" then ["system"] else []) ++ history.map Message.role := by
  refine ⟨fun h => ?_, fun h => ?_, ?_⟩
  · simp [messagesToMaps, historyToWire, buildMessageContent, h]
  · simp [messagesToMaps, historyToWire, h]
  · unfold messagesToMaps
    rw [List.map_append, historyToWire_map_role]
    by_cases hs : sys ≠ ""
    · simp [hs]
    · simp [hs]

/-- Witness for C8: the two instances from the specification's test section,
with a non-empty system prompt. -/
theorem c8_message_assembly_witness :
    messagesToMaps [c8m1, c8m2, c8m3] ["img1", "img2"] "S" =
      [⟨"system", WireContent.str "S"⟩, ⟨"user", WireContent.str "first"⟩,
       ⟨"assistant", WireContent.str "second"⟩,
       ⟨"user", WireContent.parts
         [WirePart.text "third", WirePart.imageURL "img1", WirePart.imageURL "img2"]⟩] ∧
    messagesToMaps [c8m1, c8m2, c8m3a] ["img1", "img2"] "S" =
      [⟨"system", WireContent.str "S"⟩, ⟨"user", WireContent.str "first"⟩,
       ⟨"assistant", WireContent.str "second"⟩, ⟨"assistant", WireContent.str "third"⟩] := by
  constructor
  · have h := (c8_message_assembly "S" ["img1", "img2"] c8m1 c8m2 c8m3 "img1" "img2" []).1 (by decide)
    rw [h]
    rfl
  · have h := (c8_message_assembly "S" ["img1", "img2"] c8m1 c8m2 c8m3a "img1" "img2" []).2.1 (by decide)
    rw [h]
    rfl

/-- Claim C10: every successful Client.Send returns a Response whose Raw
field is nil — the field is declared but never populated on the chat path —
for every request and every outcome of the provider transaction. -/
theorem c10_raw_never_populated
    (sendFn : Provider → List Message → List String → String → Except String String)
    (req : Option Request) (resp : Response)
    (h : clientSend sendFn req = Except.ok resp) : resp.raw = none := by
  cases req with
  | none => simp [clientSend] at h
  | some r =>
    simp only [clientSend] at h
    split at h
    · exact absurd h (by simp)
    · split at h
      · exact absurd h (by simp)
      · cases h
        rfl

/-- Witness for C10: a concrete successful send yields Raw = none. -/
theorem c10_raw_never_populated_witness :
    clientSend c10fn (some c7reqOllama) = Except.ok ⟨"hello", none⟩ ∧
    (⟨"hello", none⟩ : Response).raw = none :=
  ⟨by rfl, c10_raw_never_populated c10fn (some c7reqOllama) ⟨"hello", none⟩ (by rfl)⟩
